import Mathlib

/-!
Shallow embedding of the bartpy core covered by the specification:
`bartpy/data.py` (the `Data` feature store), `bartpy/samplers/sigma.py`
(the conjugate noise-variance sampler) and
`bartpy/featureselection.py` (`SelectNullDistributionThreshold.__init__`).

Modelling conventions:
- the response vector `y` is a `List ℚ` (exact rationals stand in for
  IEEE floats; "up to floating-point rounding" becomes exact equality);
- the covariate matrix `X` is a list of named columns, each a `List ℤ`
  (any scalar-comparable value type works for the claims considered);
- numpy's random draws are modelled by explicit oracle arguments: an
  index (or an index stream) selecting among candidates, and, for the
  gamma draw, a function of the (shape, scale) arguments;
- Python exceptions become `Except` results; the unbounded rejection
  loop of `random_splittable_value` takes explicit fuel and returns
  `Option`, with `none` meaning the loop has not yet terminated.
-/

namespace Bartpy

/-- `np.min` on a vector, as used by `Data.normalize_y`.  numpy errors on an
empty array; the empty case (out of scope for every claim) returns 0. -/
def npMinQ : List ℚ → ℚ
  | [] => 0
  | x :: xs => xs.foldl min x

/-- `np.max` on a vector.  Empty case as in `npMinQ`. -/
def npMaxQ : List ℚ → ℚ
  | [] => 0
  | x :: xs => xs.foldl max x

/-- `np.max` over an integer column, as cached in `Data._max_values`. -/
def npMaxZ : List ℤ → ℤ
  | [] => 0
  | x :: xs => xs.foldl max x

/--
The feature store `Data` of `bartpy/data.py`, in the `normalize=True`,
`cache=True` configuration that every claim addresses.  `original_y_min`
and `original_y_max` are the bounds of the pre-normalization response
captured by `__init__`; `y` stores the normalized response.  The store is
immutable, so the caches `_n_unique_values` / `_max_values`, computed once
at construction from `X`, are embedded as functions of `X` below.
-/
structure Data where
  X : List (String × List ℤ)
  y : List ℚ
  original_y_min : ℚ
  original_y_max : ℚ
deriving Repr

/-- Static method `Data.normalize_y`: `-0.5 + (y - y_min) / (y_max - y_min)`
with `y_min`, `y_max` recomputed from the argument itself (`np.min(y)`,
`np.max(y)`), exactly as in the source.  A constant vector divides by zero
in Python; in ℚ the quotient is 0 — out of scope for all claims, which
assume `max > min`. -/
def Data.normalize_y (y : List ℚ) : List ℚ :=
  y.map (fun v => -(1/2) + (v - npMinQ y) / (npMaxQ y - npMinQ y))

/-- `Data.__init__` with `normalize=True`: captures `y.min()`, `y.max()`
and stores `self.normalize_y(y)`. -/
def Data.make (X : List (String × List ℤ)) (y : List ℚ) : Data :=
  { X := X
    y := Data.normalize_y y
    original_y_min := npMinQ y
    original_y_max := npMaxQ y }

/-- `Data.unnormalize_y`: `original_y_min + (y - (-0.5)) * (original_y_max -
original_y_min)`, parameterized by the construction-time bounds. -/
def Data.unnormalize_y (d : Data) (y : List ℚ) : List ℚ :=
  y.map (fun v => d.original_y_min + (v - (-(1/2))) * (d.original_y_max - d.original_y_min))

/-- Property `Data.unnormalized_y`: `self.unnormalize_y(self.y)`. -/
def Data.unnormalized_y (d : Data) : List ℚ :=
  d.unnormalize_y d.y

/-- The column of `X` named `v` (`self.X[variable]`).  A missing name gives
the empty column; all claims use names present in `X`. -/
def Data.column (d : Data) (v : String) : List ℤ :=
  ((d.X.find? (fun c => c.1 = v)).map Prod.snd).getD []

/-- Cache `self._n_unique_values[v]`: `pd.Series.nunique`, the number of
distinct values in column `v`.  Embedded as a function of `X` since the
store never mutates after construction. -/
def Data.n_unique_values (d : Data) (v : String) : ℕ :=
  (d.column v).dedup.length

/-- Cache `self._max_values[v]`: `np.max` of column `v`. -/
def Data.max_values (d : Data) (v : String) : ℤ :=
  npMaxZ (d.column v)

/-- `Data.splittable_variables`: the variables whose cached cardinality
exceeds 1.  The source builds a set from the cache's keys (the columns of
`X` in order); a duplicate-free `X` makes the list below that set. -/
def Data.splittable_variables (d : Data) : List String :=
  (d.X.map Prod.fst).filter (fun v => 1 < d.n_unique_values v)

/-- `Data.random_splittable_variable`.  `pick` models the uniform draw of
`np.random.choice` as an index into the splittable list.  The source
expression is `np.random.choice(np.array(list(sv)), 1)[0][0]`: the first
`[0]` extracts the chosen name from the size-1 array, and the second `[0]`
indexes into that *string*, yielding its first character — embedded
faithfully as `.take 1`. -/
def Data.random_splittable_variable (d : Data) (pick : ℕ) : Except Unit String :=
  let sv := d.splittable_variables
  if sv.length = 0 then
    Except.error ()   -- raise NoSplittableVariableException()
  else
    Except.ok ((sv.getD (pick % sv.length) "").take 1)

/-- One `np.random.choice(self.X[variable])` draw: `i` models the uniform
index into the (multiplicity-weighted) observed values. -/
def pickValue (values : List ℤ) (i : ℕ) : ℤ :=
  values.getD (i % values.length) 0

/-- The rejection loop of `Data.random_splittable_value`: redraw while the
candidate equals the cached maximum.  `stream k` supplies the k-th random
index; `fuel` bounds the number of iterations observed (the source loop is
unbounded), with `none` meaning the loop is still running after `fuel`
draws. -/
def rejectionLoop (values : List ℤ) (maxV : ℤ) (stream : ℕ → ℕ) : ℕ → ℕ → Option ℤ
  | _, 0 => none
  | k, fuel + 1 =>
    if pickValue values (stream k) = maxV then
      rejectionLoop values maxV stream (k + 1) fuel
    else
      some (pickValue values (stream k))

/-- `Data.random_splittable_value`: draw observed values of `variable`
until one is not equal to `self._max_values[variable]`. -/
def Data.random_splittable_value (d : Data) (v : String) (stream : ℕ → ℕ) (fuel : ℕ) :
    Option ℤ :=
  rejectionLoop (d.column v) (d.max_values v) stream 0 fuel

/-- Pointwise inverse law used by the round-trip proofs: un-normalizing a
normalized element recovers it when the normalization bounds `m < M` are
the ones un-normalization uses. -/
lemma map_roundtrip (m M : ℚ) (hne : m ≠ M) (l : List ℚ) :
    (l.map (fun v => -(1/2) + (v - m) / (M - m))).map
      (fun w => m + (w - (-(1/2))) * (M - m)) = l := by
  have h0 : M - m ≠ 0 := sub_ne_zero.mpr (Ne.symm hne)
  induction l with
  | nil => rfl
  | cons a t ih =>
    simp only [List.map_cons, List.cons.injEq]
    refine ⟨?_, ih⟩
    field_simp
    ring

/-- Claim C1 (counterexample): the round trip `unnormalize_y ∘ normalize_y`
is not the identity on every `y` within the original range.  The store is
built (normalization enabled) over the response `[0, 10]`; the vector
`[1, 2]` lies within `[0, 10]` and the original range is non-degenerate,
yet the round trip sends it to `[0, 10]`, because the static `normalize_y`
rescales by the *argument's* min/max while `unnormalize_y` uses the
construction-time bounds. -/
theorem unnormalize_normalize_not_inverse_in_range :
    npMinQ [0, 10] < npMaxQ [0, 10] ∧
    npMinQ [0, 10] ≤ npMinQ [(1 : ℚ), 2] ∧
    npMaxQ [(1 : ℚ), 2] ≤ npMaxQ [0, 10] ∧
    (Data.make [] [0, 10]).unnormalize_y (Data.normalize_y [1, 2]) ≠ [1, 2] := by
  refine ⟨by norm_num [npMinQ, npMaxQ], by norm_num [npMinQ, npMaxQ],
    by norm_num [npMinQ, npMaxQ], ?_⟩
  simp only [Data.make, Data.unnormalize_y, Data.normalize_y, npMinQ, npMaxQ,
    List.map_cons, List.map_nil, List.foldl]
  norm_num

/-- Claim C1 (amended): for a store built with normalization enabled over a
response `y` with `max(y) > min(y)`, the round trip
`unnormalize_y (normalize_y yr) = yr` holds exactly for every vector `yr`
attaining the same minimum and maximum as the original response (in
particular for the construction response itself) — not for every vector
merely lying within the original range. -/
theorem unnormalize_normalize_roundtrip_extremes (X : List (String × List ℤ))
    (y yr : List ℚ) (hmin : npMinQ yr = npMinQ y) (hmax : npMaxQ yr = npMaxQ y)
    (hy : npMinQ y < npMaxQ y) :
    (Data.make X y).unnormalize_y (Data.normalize_y yr) = yr := by
  unfold Data.unnormalize_y Data.normalize_y Data.make
  simp only [hmin, hmax]
  exact map_roundtrip (npMinQ y) (npMaxQ y) (ne_of_lt hy) yr

/-- Witness for the amended claim C1 at a concrete input: store over
`[0, 10]`, round-tripped vector `[0, 3, 10]` sharing its extremes. -/
theorem unnormalize_normalize_roundtrip_extremes_witness :
    (Data.make [] [0, 10]).unnormalize_y (Data.normalize_y [0, 3, 10]) = [0, 3, 10] :=
  unnormalize_normalize_roundtrip_extremes [] [0, 10] [0, 3, 10]
    (by decide) (by decide) (by decide)

/-- Claim C10: for a store constructed with `normalize=True` over a
response with `max(y) > min(y)`, the `unnormalized_y` property returns
exactly the original pre-normalization response: the stored normalized
response round-trips through the construction-time bounds. -/
theorem unnormalized_y_eq_original (X : List (String × List ℤ)) (y : List ℚ)
    (hy : npMinQ y < npMaxQ y) :
    (Data.make X y).unnormalized_y = y := by
  unfold Data.unnormalized_y Data.unnormalize_y Data.make Data.normalize_y
  exact map_roundtrip (npMinQ y) (npMaxQ y) (ne_of_lt hy) y

/-- Witness for claim C10 at a concrete input. -/
theorem unnormalized_y_eq_original_witness :
    (Data.make [] [2, 5, 8]).unnormalized_y = [2, 5, 8] :=
  unnormalized_y_eq_original [] [2, 5, 8] (by decide)

/-- The seed of a left fold by `max` is below the result. -/
lemma le_foldl_max (t : List ℤ) : ∀ a : ℤ, a ≤ t.foldl max a := by
  induction t with
  | nil => intro a; exact le_refl a
  | cons b t ih =>
    intro a
    exact le_trans (le_max_left a b) (ih (max a b))

/-- Every element of the list is below a left fold by `max`. -/
lemma mem_le_foldl_max (t : List ℤ) : ∀ (a x : ℤ), x ∈ t → x ≤ t.foldl max a := by
  induction t with
  | nil => intro a x hx; cases hx
  | cons b t ih =>
    intro a x hx
    rcases List.mem_cons.mp hx with h | h
    · subst h
      exact le_trans (le_max_right a x) (le_foldl_max t (max a x))
    · exact ih (max a b) x h

/-- Every observed value is at most the cached column maximum. -/
lemma mem_le_npMaxZ (l : List ℤ) (x : ℤ) (hx : x ∈ l) : x ≤ npMaxZ l := by
  cases l with
  | nil => cases hx
  | cons a t =>
    rcases List.mem_cons.mp hx with h | h
    · subst h; exact le_foldl_max t x
    · exact mem_le_foldl_max t a x h

/-- A column with more than one distinct value has an observed value
strictly below its maximum. -/
lemma exists_lt_npMaxZ_of_dedup (l : List ℤ) (h : 1 < l.dedup.length) :
    ∃ c ∈ l, c < npMaxZ l := by
  have hnd : l.dedup.Nodup := List.nodup_dedup l
  cases e : l.dedup with
  | nil => rw [e] at h; simp at h
  | cons a t =>
    cases t with
    | nil => rw [e] at h; simp at h
    | cons b t2 =>
      rw [e] at hnd
      have hab : a ≠ b := by
        have := List.rel_of_pairwise_cons hnd (List.mem_cons_self b t2)
        exact this
      have ha : a ∈ l := (List.mem_dedup).mp (by rw [e]; exact List.mem_cons_self a _)
      have hb : b ∈ l := (List.mem_dedup).mp
        (by rw [e]; exact List.mem_cons_of_mem a (List.mem_cons_self b t2))
      by_cases hamax : a = npMaxZ l
      · refine ⟨b, hb, lt_of_le_of_ne (mem_le_npMaxZ l b hb) ?_⟩
        intro hbmax
        exact hab (by rw [hamax, hbmax])
      · exact ⟨a, ha, lt_of_le_of_ne (mem_le_npMaxZ l a ha) hamax⟩

/-- A draw from a non-empty column is an observed value of the column. -/
lemma pickValue_mem (values : List ℤ) (i : ℕ) (h : values ≠ []) :
    pickValue values i ∈ values := by
  unfold pickValue
  have hlen : 0 < values.length := List.length_pos.mpr h
  have hlt : i % values.length < values.length := Nat.mod_lt _ hlen
  rw [List.getD_eq_getElem values 0 hlt]
  exact List.getElem_mem hlt

/-- A value returned by the rejection loop is an observed value of the
column and differs from the rejected maximum. -/
lemma rejectionLoop_mem (values : List ℤ) (maxV : ℤ) (stream : ℕ → ℕ)
    (hne : values ≠ []) :
    ∀ (fuel k : ℕ) (c : ℤ), rejectionLoop values maxV stream k fuel = some c →
      c ∈ values ∧ c ≠ maxV := by
  intro fuel
  induction fuel with
  | zero => intro k c h; simp [rejectionLoop] at h
  | succ f ih =>
    intro k c h
    rw [rejectionLoop] at h
    by_cases hc : pickValue values (stream k) = maxV
    · rw [if_pos hc] at h
      exact ih (k + 1) c h
    · rw [if_neg hc] at h
      have hcc : pickValue values (stream k) = c := Option.some.inj h
      rw [← hcc]
      exact ⟨pickValue_mem values (stream k) hne, hc⟩

/-- The rejection loop returns as soon as some draw within the fuel bound
differs from the rejected maximum. -/
lemma rejectionLoop_isSome (values : List ℤ) (maxV : ℤ) (stream : ℕ → ℕ) :
    ∀ (fuel k : ℕ),
      (∃ n, n < fuel ∧ pickValue values (stream (k + n)) ≠ maxV) →
      (rejectionLoop values maxV stream k fuel).isSome := by
  intro fuel
  induction fuel with
  | zero =>
    rintro k ⟨n, hn, _⟩
    omega
  | succ f ih =>
    rintro k ⟨n, hn, hval⟩
    rw [rejectionLoop]
    by_cases hc : pickValue values (stream k) = maxV
    · rw [if_pos hc]
      apply ih (k + 1)
      cases n with
      | zero =>
        rw [Nat.add_zero] at hval
        exact absurd hc hval
      | succ m =>
        refine ⟨m, by omega, ?_⟩
        have harith : k + (m + 1) = k + 1 + m := by omega
        rw [harith] at hval
        exact hval
    · rw [if_neg hc]
      rfl

/-- Claim C3: `random_splittable_variable` is meant to return a member of
`splittable_variables()` (a full variable name), but the source expression
`np.random.choice(...)[0][0]` indexes into the chosen name and returns its
first character.  On a store whose only splittable variable is named "ab"
(values 1 and 2), the call returns "a", which is not a member of
`splittable_variables()` — the code contradicts its own docstring
("Returns str - a variable name that can be split on"). -/
theorem random_splittable_variable_returns_first_char :
    (Data.make [("ab", [1, 2])] [0, 1]).random_splittable_variable 0 = Except.ok "a" ∧
    "a" ∉ (Data.make [("ab", [1, 2])] [0, 1]).splittable_variables := by
  constructor
  · rfl
  · decide

/-- Claim C4: `random_splittable_variable` raises
`NoSplittableVariableException` if and only if `splittable_variables()` is
empty; whenever at least one splittable variable exists it never raises,
for every random draw `pick`. -/
theorem random_splittable_variable_error_iff_empty (d : Data) (pick : ℕ) :
    d.random_splittable_variable pick = Except.error () ↔
      d.splittable_variables = [] := by
  unfold Data.random_splittable_variable
  by_cases h : d.splittable_variables.length = 0
  · simp only [h, if_pos rfl]
    exact ⟨fun _ => List.length_eq_zero.mp h, fun _ => rfl⟩
  · rw [if_neg h]
    constructor
    · intro he
      cases he
    · intro he
      exact absurd (by rw [he]; rfl) h

/-- Claim C5: for a variable `v` with cached cardinality above 1, any
value returned by `random_splittable_value` is an observed value of column
`v` that is strictly less than the cached per-variable maximum — in
particular it is never the cached maximum. -/
theorem random_splittable_value_mem_lt_max (d : Data) (v : String)
    (stream : ℕ → ℕ) (fuel : ℕ) (c : ℤ) (hcard : 1 < d.n_unique_values v)
    (h : d.random_splittable_value v stream fuel = some c) :
    c ∈ d.column v ∧ c < d.max_values v := by
  have hne : d.column v ≠ [] := by
    intro he
    rw [Data.n_unique_values, he] at hcard
    simp [List.dedup] at hcard
  obtain ⟨hmem, hneq⟩ := rejectionLoop_mem (d.column v) (d.max_values v) stream hne fuel 0 c h
  exact ⟨hmem, lt_of_le_of_ne (mem_le_npMaxZ (d.column v) c hmem) hneq⟩

/-- Witness for claim C5: on a store with column "x" = [1, 2], the stream
that always picks index 0 returns the observed value 1, which is in the
column and strictly below the cached maximum 2. -/
theorem random_splittable_value_mem_lt_max_witness :
    1 ∈ (Data.make [("x", [1, 2])] [0, 1]).column "x" ∧
    1 < (Data.make [("x", [1, 2])] [0, 1]).max_values "x" :=
  random_splittable_value_mem_lt_max (Data.make [("x", [1, 2])] [0, 1]) "x"
    (fun _ => 0) 1 1 (by decide) (by decide)

/-- Claim C6: for a variable `v` with cached cardinality above 1 (as for
any variable drawn from `splittable_variables()`), some observed value of
`v` is strictly less than the cached maximum, and consequently the
rejection loop terminates: any draw stream that ever selects a value
different from the maximum within the fuel bound makes
`random_splittable_value` return a value. -/
theorem random_splittable_value_terminating (d : Data) (v : String)
    (hcard : 1 < d.n_unique_values v) :
    (∃ c ∈ d.column v, c < d.max_values v) ∧
    ∀ (stream : ℕ → ℕ) (fuel : ℕ),
      (∃ n, n < fuel ∧ pickValue (d.column v) (stream n) ≠ d.max_values v) →
      (d.random_splittable_value v stream fuel).isSome := by
  constructor
  · exact exists_lt_npMaxZ_of_dedup (d.column v) hcard
  · rintro stream fuel ⟨n, hn, hv⟩
    apply rejectionLoop_isSome (d.column v) (d.max_values v) stream fuel 0
    refine ⟨n, hn, ?_⟩
    rw [Nat.zero_add]
    exact hv

/-- Witness for claim C6: on a store with column "x" = [1, 2], a
below-maximum observed value exists, and the constant-0 stream makes the
loop return within one iteration. -/
theorem random_splittable_value_terminating_witness :
    (∃ c ∈ (Data.make [("x", [3, 7])] [0, 1]).column "x",
      c < (Data.make [("x", [3, 7])] [0, 1]).max_values "x") ∧
    ((Data.make [("x", [3, 7])] [0, 1]).random_splittable_value "x"
      (fun _ => 0) 1).isSome :=
  ⟨(random_splittable_value_terminating (Data.make [("x", [3, 7])] [0, 1]) "x"
      (by decide)).1,
   (random_splittable_value_terminating (Data.make [("x", [3, 7])] [0, 1]) "x"
      (by decide)).2 (fun _ => 0) 1 ⟨0, by decide, by decide⟩⟩

/-- `len(self.X)` on a DataFrame: the number of rows.  With the columnar
embedding this is the length of the first column (all columns of a
well-formed frame have equal length). -/
def Data.n_obsv (d : Data) : ℕ :=
  match d.X with
  | [] => 0
  | c :: _ => c.2.length

/--
Modelled from the spec: the class `bartpy.sigma.Sigma` is not among the
given sources; the spec describes the sampler parameter holder as two
fixed prior hyperparameters (shape `alpha`, rate-like `beta`) plus one
mutable current value, mutated in place via `set_value`.
-/
structure Sigma where
  alpha : ℝ
  beta : ℝ
  value : ℝ

/--
Modelled from the spec: the class `bartpy.model.Model` is not among the
given sources; the spec describes the model state as exposing a
`residuals()` operation (response minus current ensemble fit, one value
per observation) and the feature store `data` for `n_obsv` queries.
-/
structure Model where
  data : Data
  residuals : List ℝ

/-- `SigmaSampler.sample`: the conjugate noise-variance draw of
`bartpy/samplers/sigma.py`.  The process-wide `np.random.gamma` is
modelled by the oracle `gammaDraw`, a function of the (shape, scale)
arguments it is called with; `np.power(·, -0.5)` is real exponentiation by
-0.5. -/
noncomputable def SigmaSampler.sample (gammaDraw : ℝ → ℝ → ℝ) (model : Model)
    (sigma : Sigma) : ℝ :=
  let posterior_alpha : ℝ := sigma.alpha + (model.data.n_obsv : ℝ) / 2
  let posterior_beta : ℝ := sigma.beta + 0.5 * (model.residuals.map (fun r => r ^ 2)).sum
  Real.rpow (gammaDraw posterior_alpha (1 / posterior_beta)) (-0.5)

/-- `SigmaSampler.step`: `sigma.set_value(self.sample(model, sigma))` then
`return "Sigma", True`.  The in-place mutation is embedded by returning
the updated holder alongside the (name, accepted) pair. -/
noncomputable def SigmaSampler.step (gammaDraw : ℝ → ℝ → ℝ) (model : Model)
    (sigma : Sigma) : Sigma × String × Bool :=
  ({ sigma with value := SigmaSampler.sample gammaDraw model sigma }, "Sigma", true)

/-- Claim C2: `SigmaSampler.sample` consults the gamma oracle at exactly
the posterior shape `alpha + n/2` and the scale `1/rate` with posterior
rate `beta + 0.5 * sum(r_i^2)`, and returns the draw raised to the power
-0.5. -/
theorem sigma_sample_posterior_parameters (g : ℝ → ℝ → ℝ) (model : Model)
    (sigma : Sigma) :
    SigmaSampler.sample g model sigma =
      Real.rpow
        (g (sigma.alpha + (model.data.n_obsv : ℝ) / 2)
           (sigma.beta + ((model.residuals.map (fun r => r ^ 2)).sum) / 2)⁻¹)
        (-(1 / 2)) := by
  unfold SigmaSampler.sample
  norm_num
  ring_nf
  congr 3
  ring

/-- Claim C7: `SigmaSampler.step` always returns the pair ("Sigma", true)
— the accepted flag is constantly true — and its sole effect on the
holder is overwriting the current value with the fresh `sample` draw,
leaving the prior hyperparameters `alpha` and `beta` untouched. -/
theorem sigma_step_returns_sigma_true (g : ℝ → ℝ → ℝ) (model : Model)
    (sigma : Sigma) :
    SigmaSampler.step g model sigma =
      (⟨sigma.alpha, sigma.beta, SigmaSampler.sample g model sigma⟩, "Sigma", true) :=
  rfl

/-- Claim C8: the holder's value stays strictly positive: whenever the
gamma oracle returns strictly positive reals (the support of the Gamma
distribution) and the holder's current value is strictly positive, both
the value returned by `sample` and the value written by `step` are
strictly positive. -/
theorem sigma_sample_positive (g : ℝ → ℝ → ℝ) (model : Model) (sigma : Sigma)
    (hg : ∀ a b, 0 < g a b) (_hval : 0 < sigma.value) :
    0 < SigmaSampler.sample g model sigma ∧
    0 < (SigmaSampler.step g model sigma).1.value := by
  have h : 0 < SigmaSampler.sample g model sigma :=
    Real.rpow_pos_of_pos (hg _ _) _
  exact ⟨h, h⟩

/-- Witness for claim C8 at a concrete input: an everywhere-1 gamma oracle
and a holder with alpha = beta = value = 1. -/
theorem sigma_sample_positive_witness :
    0 < SigmaSampler.sample (fun _ _ => 1) ⟨⟨[], [], 0, 0⟩, []⟩ ⟨1, 1, 1⟩ ∧
    0 < (SigmaSampler.step (fun _ _ => 1) ⟨⟨[], [], 0, 0⟩, []⟩ ⟨1, 1, 1⟩).1.value :=
  sigma_sample_positive (fun _ _ => 1) ⟨⟨[], [], 0, 0⟩, []⟩ ⟨1, 1, 1⟩
    (fun _ _ => zero_lt_one) zero_lt_one

/-- The ways `SelectNullDistributionThreshold.__init__` can fail. -/
inductive InitFailure where
  | notImplementedError (msg : String)
  | attributeError (attr : String)
deriving DecidableEq, Repr

/-- The two supported threshold methods of
`SelectNullDistributionThreshold` (`local_thresholds` and
`global_thresholds` from `bartpy.diagnostics.features`). -/
inductive ThresholdMethod where
  | localThresholds
  | globalThresholds
deriving DecidableEq, Repr

/-- The constructed `SelectNullDistributionThreshold` estimator state (the
`model` argument is orthogonal to the claims and omitted). -/
structure SelectNullDistributionThreshold where
  method : ThresholdMethod
  percentile : ℚ
  n_permutations : ℕ
deriving DecidableEq, Repr

/-- `SelectNullDistributionThreshold.__init__` of
`bartpy/featureselection.py`.  For an unrecognized method the source
executes `raise NotImplementedError("...".format(self.method))`: Python
evaluates the message argument first, and `self.method` has not been
assigned on this branch (it is only assigned in the "local"/"global"
branches), so attribute lookup raises `AttributeError` before the
`NotImplementedError` is ever constructed. -/
def SelectNullDistributionThreshold.init (percentile : ℚ) (method : String)
    (n_permutations : ℕ) : Except InitFailure SelectNullDistributionThreshold :=
  if method = "local" then
    Except.ok ⟨ThresholdMethod.localThresholds, percentile, n_permutations⟩
  else if method = "global" then
    Except.ok ⟨ThresholdMethod.globalThresholds, percentile, n_permutations⟩
  else
    Except.error (InitFailure.attributeError "method")

/-- Claim C9: constructing `SelectNullDistributionThreshold` with an
unrecognized method name (here "quantile") does fail fast at construction
and never silently defaults, but the signal raised is `AttributeError`
(from evaluating the unassigned `self.method` inside the error message),
not the claimed `NotImplementedError`: no message can make the result a
`NotImplementedError`. -/
theorem selectNullDistributionThreshold_init_attribute_error :
    SelectNullDistributionThreshold.init (95 / 100) "quantile" 10 =
      Except.error (InitFailure.attributeError "method") ∧
    ∀ msg : String,
      SelectNullDistributionThreshold.init (95 / 100) "quantile" 10 ≠
        Except.error (InitFailure.notImplementedError msg) := by
  constructor
  · rfl
  · intro msg h
    rw [SelectNullDistributionThreshold.init] at h
    simp at h

end Bartpy
